import Mathlib

/-
Verification development for the resumable URL-validation pipeline of
`eduValidUrlChecking.py`.  The Python source is shallowly embedded below:
pure data manipulation becomes Lean functions on lists, the driver loop
becomes explicit recursion producing an event trace, file persistence
becomes a small-step operation sequence over a modelled file system, and
the verifier's network/render stages become oracles supplied through an
environment record.
-/

namespace EduCheck

/-! ## String helpers

Executable models of the Python string operations used by the source
(`str.strip`, `str.lower`, `str.startswith`), written over the character
list of a `String` so that concrete instances reduce in the kernel. -/

/-- Model of Python `str.strip()`: drop whitespace from both ends. -/
def pyStrip (s : String) : String :=
  ⟨((s.data.dropWhile Char.isWhitespace).reverse.dropWhile Char.isWhitespace).reverse⟩

/-- Model of Python `str.lower()` (ASCII case folding). -/
def pyLower (s : String) : String :=
  ⟨s.data.map Char.toLower⟩

/-- Character-list version of a startswith test: `chStarts pat cs` holds when
`pat` is an initial segment of `cs`. -/
def chStarts : List Char → List Char → Bool
  | [], _ => true
  | _ :: _, [] => false
  | p :: ps, c :: cs => (p == c) && chStarts ps cs

/-- Model of Python `str.startswith(pat)`. -/
def pyStartsWith (s pat : String) : Bool :=
  chStarts pat.data s.data

/-! ## Configuration constants (lines 59-71 of the source) -/

def REQUESTS_TIMEOUT : Nat := 8
def SELENIUM_PAGE_LOAD_TIMEOUT : Nat := 30
def SELENIUM_WAIT_SHORT : Nat := 10
def SELENIUM_WAIT_LONG : Nat := 45
def SELENIUM_MAX_WAIT_PER_URL : Nat := 70
def BODY_MIN_LENGTH : Nat := 20
def EXTRA_JS_SETTLE : Nat := 1
def AUTOSAVE_EVERY : Nat := 1

/-! ## Data model

A `Row0` is an original input record: its non-URL columns are collapsed into
one opaque `data` field, plus the detected URL column.  A `Row` additionally
carries the `status` and `status_detail` columns; `none` models a pandas NaN
cell (as produced by an unmatched left merge), `some s` a string cell. -/

structure Row0 where
  data : String
  url : String
deriving DecidableEq, Repr

structure Row where
  data : String
  url : String
  status : Option String
  detail : Option String
deriving DecidableEq, Repr

/-- Outcome of attempting to load the previous output CSV (lines 213-254):
the file may be absent, unreadable (`pd.read_csv` raised), or parsed, in
which case we record whether the detected URL column is present. -/
inductive PrevData where
  | noFile
  | parseError
  | parsed (hasUrlCol : Bool) (rows : List Row)
deriving DecidableEq, Repr

/-- Fresh working table (lines 242-244 / 247-249 / 252-254): the original
rows with `status` and `status_detail` columns added as empty strings. -/
def freshTable (orig : List Row0) : List Row :=
  orig.map fun r => ⟨r.data, r.url, some "", some ""⟩

/-- Contribution of one original row to the pandas left merge: it is paired
with every previous row having an equal URL value (in previous-output
order), and keeps NaN status columns when there is no match. -/
def mergeRowByUrl (prev : List Row) (r : Row0) : List Row :=
  let ps := prev.filter fun p => p.url == r.url
  if ps.isEmpty then [⟨r.data, r.url, none, none⟩]
  else ps.map fun p => ⟨r.data, r.url, p.status, p.detail⟩

/-- Pandas left merge on the URL column (lines 226-237):
`merged = original_df.merge(prev_subset, on=url_col, how="left")`. -/
def mergeByUrl (orig : List Row0) (prev : List Row) : List Row :=
  orig.flatMap (mergeRowByUrl prev)

/-- Modelled from the spec: the merge as the spec describes it — for each
original row, if its URL matches a previously-recorded URL, carry over that
row's status and detail, otherwise mark it unresolved.  Stated only to be
compared with `mergeByUrl`, the definition taken from the source. -/
def specMergeByUrl (orig : List Row0) (prev : List Row) : List Row :=
  orig.map fun r =>
    match prev.find? (fun p => p.url == r.url) with
    | some p => ⟨r.data, r.url, p.status, p.detail⟩
    | none => ⟨r.data, r.url, none, none⟩

/-- Startup reconciliation (lines 213-254): no file, a parse failure, or a
missing URL column each yield a fresh table; a parsed previous output with
equal row count is adopted positionally; otherwise the tables are merged by
URL content. -/
def reconcile (orig : List Row0) (prev : PrevData) : List Row :=
  match prev with
  | PrevData.noFile => freshTable orig
  | PrevData.parseError => freshTable orig
  | PrevData.parsed false _ => freshTable orig
  | PrevData.parsed true rows =>
      if rows.length = orig.length then rows else mergeByUrl orig rows

/-- Predicate `is_unprocessed` (lines 257-258): a status cell is unprocessed
when it is NaN or blank after stripping. -/
def isUnprocessed (v : Option String) : Bool :=
  match v with
  | none => true
  | some s => pyStrip s == ""

/-- Line 261: index of the first row whose status is unprocessed, `none`
when every row is already resolved. -/
def firstUnresolvedIdx : List Row → Option Nat
  | [] => none
  | r :: rs =>
      if isUnprocessed r.status then some 0
      else (firstUnresolvedIdx rs).map (· + 1)

/-! ## Verifier and driver loop (lines 256-338)

Network and browser behaviour is supplied through an `Env` of oracles: the
probe oracle gives the result of `try_requests_head_or_get` (completed with
a status code, or failed with an exception message), and the selenium
oracle gives the result of `check_with_selenium`; `none` from the selenium
oracle models an uncaught exception (e.g. a keyboard interrupt) escaping
while the row is being processed. -/

/-- Observable events of a run: network/render activity and persistence. -/
inductive Ev where
  | probe (url : String)
  | render (url : String)
  | saveCsv (df : List Row)
  | saveXlsx (df : List Row)
  | saveMeta (lastIdx : Option Nat)
deriving DecidableEq, Repr

structure Env where
  probe : String → Bool × (Nat ⊕ String)
  selenium : String → Option (Bool × String)
  meta0 : Option Nat

/-- Line 289: prepend a scheme when the raw string has no http(s) prefix. -/
def withScheme (raw : String) : String :=
  if pyStartsWith (pyLower raw) "http://" || pyStartsWith (pyLower raw) "https://" then raw
  else "http://" ++ raw

/-- Python `str(b)` rendering of a boolean, as interpolated into the
`requests_ok` part of the detail string. -/
def pyBool (b : Bool) : String :=
  if b then "True" else "False"

/-- Body of one iteration of the driver loop (lines 283-305): normalize the
raw URL, short-circuit empty/placeholder values, otherwise run the probe and
then the render check, and write the verdict into the row.  Returns the
updated row together with the network events it emitted, or `none` when an
uncaught exception interrupts the row. -/
def processRow (env : Env) (row : Row) : Option (Row × List Ev) :=
  let raw := pyStrip row.url
  if raw == "" || pyLower raw == "nan" || pyLower raw == "none" then
    some ({ row with status := some "invalid", detail := some "empty url" }, [])
  else
    let url := withScheme raw
    let p := env.probe url
    let reqOkFlag := p.1 && (match p.2 with
      | Sum.inl code => decide (code < 400)
      | Sum.inr _ => false)
    match env.selenium url with
    | none => none
    | some (true, det) =>
        some ({ row with status := some "valid",
                         detail := some ("selenium:" ++ det ++ "; requests_ok:" ++ pyBool reqOkFlag) },
              [Ev.probe url, Ev.render url])
    | some (false, det) =>
        some ({ row with status := some "invalid",
                         detail := some ("selenium_error:" ++ det ++ "; requests_ok:" ++ pyBool reqOkFlag) },
              [Ev.probe url, Ev.render url])

/-- Result of a run: the event trace, the final working table, and the
final checkpoint metadata (`last_processed_index`). -/
structure RunOut where
  evs : List Ev
  table : List Row
  meta : Option Nat
deriving DecidableEq, Repr

/-- The row loop (lines 281-321), fuelled by the number of remaining rows:
process the row at `idx`, update the table and checkpoint metadata, and
persist once the since-last-save counter reaches `AUTOSAVE_EVERY`.  An
uncaught exception (the `none` branch) aborts the loop with the table as
already updated. -/
def loopGo (env : Env) : Nat → List Row → Nat → Nat → Option Nat → RunOut
  | 0, df, _, _, meta => ⟨[], df, meta⟩
  | fuel + 1, df, idx, cnt, meta =>
      if h : idx < df.length then
        match processRow env df[idx] with
        | none => ⟨[], df, meta⟩
        | some (row', evs) =>
            let df' := df.set idx row'
            let meta' := some idx
            let cnt' := cnt + 1
            if cnt' ≥ AUTOSAVE_EVERY then
              let rest := loopGo env fuel df' (idx + 1) 0 meta'
              ⟨evs ++ [Ev.saveCsv df', Ev.saveMeta meta'] ++ rest.evs, rest.table, rest.meta⟩
            else
              let rest := loopGo env fuel df' (idx + 1) cnt' meta'
              ⟨evs ++ rest.evs, rest.table, rest.meta⟩
      else ⟨[], df, meta⟩

/-- The main flow from the first-unresolved scan onwards (lines 256-338).
When every row is already resolved, only the Excel snapshot write happens
before returning (lines 262-269); otherwise the row loop runs and the
`finally` block (lines 323-338) persists CSV, Excel and checkpoint
metadata one final time. -/
def mainRun (env : Env) (df0 : List Row) : RunOut :=
  match firstUnresolvedIdx df0 with
  | none => ⟨[Ev.saveXlsx df0], df0, env.meta0⟩
  | some i =>
      let r := loopGo env (df0.length - i) df0 i 0 env.meta0
      ⟨r.evs ++ [Ev.saveCsv r.table, Ev.saveXlsx r.table, Ev.saveMeta r.meta], r.table, r.meta⟩

/-! ## Concrete fixtures used by counterexamples and witnesses -/

/-- Original input rows A, B, C. -/
def origABC : List Row0 :=
  [⟨"A", "http://a"⟩, ⟨"B", "http://b"⟩, ⟨"C", "http://c"⟩]

/-- Previous output containing only rows A and C, both valid. -/
def prevAC : List Row :=
  [⟨"A", "http://a", some "valid", some "ok_a"⟩, ⟨"C", "http://c", some "valid", some "ok_c"⟩]

/-- Working table obtained by reconciling `origABC` with `prevAC`. -/
def dfStart : List Row := reconcile origABC (PrevData.parsed true prevAC)

/-- Environment whose probe always fails and whose render check always
reports failure. -/
def envInvalid : Env :=
  ⟨fun _ => (false, Sum.inr "req_fail"), fun _ => some (false, "render_fail"), none⟩

/-- Environment whose probe succeeds with 200 and whose render check always
reports success. -/
def envValid : Env :=
  ⟨fun _ => (true, Sum.inl 200), fun _ => some (true, "ready"), none⟩

/-- A fully resolved one-row table. -/
def dfDone : List Row := [⟨"A", "http://a", some "valid", some "ok"⟩]

/-- An unresolved row with a fully-schemed URL. -/
def rowB : Row := ⟨"B", "http://b", none, none⟩

/-- A row whose URL cell stringifies to the placeholder `NaN`. -/
def rowNan : Row := ⟨"N", "NaN", some "", some ""⟩

/-- An unresolved row whose URL lacks a scheme. -/
def rowPlain : Row := ⟨"E", "example.com", none, none⟩

/-- Environment with a succeeding probe but the same failing render oracle
as `envInvalid`. -/
def envProbeOk : Env :=
  ⟨fun _ => (true, Sum.inl 200), fun _ => some (false, "render_fail"), none⟩

/-- One-row input whose URL occurs twice in `prevDup`. -/
def origDup : List Row0 := [⟨"X", "http://x"⟩]

/-- Previous output carrying the same URL twice with conflicting verdicts. -/
def prevDup : List Row :=
  [⟨"X", "http://x", some "valid", some "d1"⟩, ⟨"X", "http://x", some "invalid", some "d2"⟩]

/-! ## Render stage timing (lines 142-187)

Time is measured in whole seconds from navigation start (`start_ts`).  A
`RenderEnv` describes how one page behaves: the outcome and duration of
`driver.get`, the absolute time (if any) at which the document reaches
`readyState == "complete"` (with the `body` element taken to be present
from that same moment), and the rendered body length. -/

inductive NavOut where
  | ok
  | timedOut
  | invalidUrl (m : String)
  | wdErr (m : String)
  | otherErr (m : String)
deriving DecidableEq, Repr

structure RenderEnv where
  navOutcome : NavOut
  navTime : Nat
  readyAt : Option Nat
  bodyLen : Nat
deriving DecidableEq, Repr

/-- Model of `wait_for_page_complete` (lines 142-158) started at absolute
time `s` with timeout `w`: the readiness poll succeeds exactly when the
document completes within the window, after which the settle delay elapses
and the body length is measured; otherwise the wait times out at `s + w`.
Returns (ok, detail, absolute end time). -/
def waitForPageComplete (env : RenderEnv) (s w : Nat) : Bool × String × Nat :=
  match env.readyAt with
  | some t =>
      if t ≤ s + w then
        if env.bodyLen ≥ BODY_MIN_LENGTH then
          (true, "ready; body_len=" ++ toString env.bodyLen, max s t + EXTRA_JS_SETTLE)
        else
          (true, "ready_but_small_body; body_len=" ++ toString env.bodyLen, max s t + EXTRA_JS_SETTLE)
      else (false, "timeout_waiting", s + w)
  | none => (false, "timeout_waiting", s + w)

/-- Result of `check_with_selenium`: verdict, detail, absolute end time,
and the (start, timeout) of every readiness wait that was issued. -/
structure SelRes where
  ok : Bool
  detail : String
  endTime : Nat
  waits : List (Nat × Nat)
deriving DecidableEq, Repr

/-- Model of `check_with_selenium` (lines 160-187): navigation errors other
than a page-load timeout fail the stage immediately; otherwise a short
readiness wait runs, and on failure, while elapsed time is below the hard
per-URL ceiling, the wait is retried with timeout
`min SELENIUM_WAIT_LONG (SELENIUM_MAX_WAIT_PER_URL - elapsed)`. -/
def checkWithSelenium (env : RenderEnv) : SelRes :=
  match env.navOutcome with
  | NavOut.invalidUrl m => ⟨false, "invalid_url:" ++ m, env.navTime, []⟩
  | NavOut.wdErr m => ⟨false, "webdriver_get_error:" ++ m, env.navTime, []⟩
  | NavOut.otherErr m => ⟨false, "get_exception:" ++ m, env.navTime, []⟩
  | NavOut.ok | NavOut.timedOut =>
      let s := env.navTime
      match waitForPageComplete env s SELENIUM_WAIT_SHORT with
      | (true, det, t1) =>
          ⟨true, "short_wait_ok:" ++ det, t1, [(s, SELENIUM_WAIT_SHORT)]⟩
      | (false, det, t1) =>
          let elapsed := t1
          if elapsed < SELENIUM_MAX_WAIT_PER_URL then
            let remaining := min SELENIUM_WAIT_LONG (SELENIUM_MAX_WAIT_PER_URL - elapsed)
            match waitForPageComplete env elapsed remaining with
            | (true, det2, t2) =>
                ⟨true, "long_wait_ok:" ++ det2, t2,
                 [(s, SELENIUM_WAIT_SHORT), (elapsed, remaining)]⟩
            | (false, det2, t2) =>
                ⟨false, "both_waits_failed: short_detail=" ++ det ++ "; long_detail=" ++ det2, t2,
                 [(s, SELENIUM_WAIT_SHORT), (elapsed, remaining)]⟩
          else
            ⟨false, "short_wait_failed_and_no_time_for_long_wait; detail=" ++ det, elapsed,
             [(s, SELENIUM_WAIT_SHORT)]⟩

/-! ## Crash-atomic persistence (lines 75-96)

A file system maps a path (directory plus file name) to an optional file
content, a content being the list of chunks written to the file so far.  A
persist is a sequence of primitive operations; a crash at an arbitrary
point corresponds to stopping after an arbitrary prefix of the sequence. -/

structure FPath where
  dir : String
  fname : String
deriving DecidableEq, Repr

def FS : Type := FPath → Option (List String)

inductive FsOp where
  | create (p : FPath)
  | append (p : FPath) (chunk : String)
  | replace (src dst : FPath)
deriving DecidableEq, Repr

def fsSet (fs : FS) (p : FPath) (v : List String) : FS :=
  fun q => if q = p then some v else fs q

def fsDel (fs : FS) (p : FPath) : FS :=
  fun q => if q = p then none else fs q

def applyOp (fs : FS) : FsOp → FS
  | FsOp.create p => fsSet fs p []
  | FsOp.append p c => fsSet fs p (((fs p).getD []) ++ [c])
  | FsOp.replace src dst =>
      match fs src with
      | some v => fsDel (fsSet fs dst v) src
      | none => fs

def applyOps (fs : FS) (ops : List FsOp) : FS :=
  ops.foldl applyOp fs

/-- Paths written by one operation. -/
def opWrites : FsOp → List FPath
  | FsOp.create p => [p]
  | FsOp.append p _ => [p]
  | FsOp.replace src dst => [src, dst]

/-- Operation sequence of `atomic_write_csv` (lines 75-90): create a fresh
temporary file via `tempfile.mkstemp(dir=os.path.dirname(path))` — hence in
the target's directory — stream the full content into it, then install it
with one `os.replace`. -/
def atomicWriteCsvOps (tmpName : String) (target : FPath) (content : List String) : List FsOp :=
  FsOp.create ⟨target.dir, tmpName⟩ ::
    (content.map (FsOp.append ⟨target.dir, tmpName⟩) ++ [FsOp.replace ⟨target.dir, tmpName⟩ target])

/-- Operation sequence of `save_checkpoint_meta` (lines 92-96): the
temporary file is `path + ".tmp"`, again in the target's directory, written
in full and installed with one `os.replace`. -/
def saveCheckpointMetaOps (target : FPath) (content : List String) : List FsOp :=
  FsOp.create ⟨target.dir, target.fname ++ ".tmp"⟩ ::
    (content.map (FsOp.append ⟨target.dir, target.fname ++ ".tmp"⟩) ++
      [FsOp.replace ⟨target.dir, target.fname ++ ".tmp"⟩ target])

/-! ## Theorems -/

/-- C1: the claim says a row whose status is already terminal at the start
of the run is never re-verified and never overwritten.  The code violates
this: the loop runs over `range(first_unprocessed, len(df))` without
re-checking each row's status, so the reconciled row C — valid at start,
sitting after the unresolved row B — is re-rendered and its status is
overwritten from valid to invalid. -/
theorem c1_resolved_row_reverified :
    dfStart[2]? = some ⟨"C", "http://c", some "valid", some "ok_c"⟩ ∧
    firstUnresolvedIdx dfStart = some 1 ∧
    (mainRun envInvalid dfStart).table[2]? =
      some ⟨"C", "http://c", some "invalid",
            some "selenium_error:render_fail; requests_ok:False"⟩ ∧
    Ev.render "http://c" ∈ (mainRun envInvalid dfStart).evs := by
  decide

/-- C3: whenever the row loop runs at all — to normal completion or cut
short by an uncaught exception, both covered by the universally quantified
environment — the trace ends with one final persist of the final working
table (CSV, then Excel, then checkpoint metadata), placed after every loop
event. -/
theorem c3_final_persist (env : Env) (df0 : List Row) (i : Nat)
    (h : firstUnresolvedIdx df0 = some i) :
    ∃ pre m, (mainRun env df0).evs =
      pre ++ [Ev.saveCsv (mainRun env df0).table, Ev.saveXlsx (mainRun env df0).table,
              Ev.saveMeta m] := by
  simp only [mainRun, h]
  exact ⟨_, _, rfl⟩

/-- Witness for C3 at a concrete table and environment. -/
theorem c3_final_persist_witness :
    ∃ pre m, (mainRun envValid dfStart).evs =
      pre ++ [Ev.saveCsv (mainRun envValid dfStart).table,
              Ev.saveXlsx (mainRun envValid dfStart).table, Ev.saveMeta m] :=
  c3_final_persist envValid dfStart 1 (by decide)

/-- C5: the final status depends only on the render-stage outcome — two
environments with identical selenium oracles but arbitrary, possibly
different probe oracles produce the same status for every row. -/
theorem c5_status_independent_of_probe (e1 e2 : Env) (row : Row)
    (h : e1.selenium = e2.selenium) :
    (processRow e1 row).map (fun pr => pr.1.status) =
      (processRow e2 row).map (fun pr => pr.1.status) := by
  simp only [processRow, h]
  by_cases hraw : (pyStrip row.url == "" || pyLower (pyStrip row.url) == "nan" ||
      pyLower (pyStrip row.url) == "none") = true
  · simp [hraw]
  · rw [Bool.not_eq_true] at hraw
    simp only [hraw, Bool.false_eq_true, if_false]
    rcases hsel : e2.selenium (withScheme (pyStrip row.url)) with _ | ⟨ok, det⟩
    · simp [hsel]
    · cases ok <;> simp [hsel]

/-- Witness for C5: probes disagree (success 200 versus failure), renders
agree, statuses agree. -/
theorem c5_status_independent_of_probe_witness :
    (processRow envInvalid rowB).map (fun pr => pr.1.status) =
      (processRow envProbeOk rowB).map (fun pr => pr.1.status) :=
  c5_status_independent_of_probe envInvalid envProbeOk rowB rfl

/-- C8: a row whose URL cell strips to an empty or placeholder string is
immediately invalid with detail `empty url` and emits no network events;
any other row reaches the probe and the renderer with the scheme-completed
URL, and a schemeless string gets `http://` prepended. -/
theorem c8_empty_url_short_circuit :
    (∀ (env : Env) (row : Row),
        (pyStrip row.url == "" || pyLower (pyStrip row.url) == "nan" ||
          pyLower (pyStrip row.url) == "none") = true →
        processRow env row =
          some ({ row with status := some "invalid", detail := some "empty url" }, [])) ∧
    (∀ (env : Env) (row : Row) (ok : Bool) (det : String),
        (pyStrip row.url == "" || pyLower (pyStrip row.url) == "nan" ||
          pyLower (pyStrip row.url) == "none") = false →
        env.selenium (withScheme (pyStrip row.url)) = some (ok, det) →
        ∃ r, processRow env row =
          some (r, [Ev.probe (withScheme (pyStrip row.url)),
                    Ev.render (withScheme (pyStrip row.url))])) ∧
    (∀ raw : String,
        (pyStartsWith (pyLower raw) "http://" || pyStartsWith (pyLower raw) "https://") = false →
        withScheme raw = "http://" ++ raw) := by
  refine ⟨?_, ?_, ?_⟩
  · intro env row h
    simp only [processRow, h, if_true]
  · intro env row ok det h hsel
    simp only [processRow, h, Bool.false_eq_true, if_false, hsel]
    cases ok <;> exact ⟨_, rfl⟩
  · intro raw h
    simp only [withScheme, h, Bool.false_eq_true, if_false]

/-- Witness for C8: the placeholder `NaN` short-circuits with no events,
while `example.com` reaches both network stages as `http://example.com`. -/
theorem c8_empty_url_short_circuit_witness :
    processRow envValid rowNan = some (⟨"N", "NaN", some "invalid", some "empty url"⟩, []) ∧
    (∃ r, processRow envValid rowPlain =
      some (r, [Ev.probe "http://example.com", Ev.render "http://example.com"])) ∧
    withScheme "example.com" = "http://example.com" := by
  refine ⟨?_, ?_, ?_⟩
  · exact c8_empty_url_short_circuit.1 envValid rowNan (by decide)
  · have h := c8_empty_url_short_circuit.2.1 envValid rowPlain true "ready" (by decide) (by decide)
    have e : withScheme (pyStrip rowPlain.url) = "http://example.com" := by decide
    rw [e] at h
    exact h
  · exact c8_empty_url_short_circuit.2.2 "example.com" (by decide)

/-- C9 counterexample: on a table with no unresolved row the run writes
only the Excel snapshot — no CSV table snapshot and no checkpoint-metadata
record is persisted on this exit path, contrary to the claim. -/
theorem c9_counterexample :
    (mainRun envInvalid dfDone).evs = [Ev.saveXlsx dfDone] ∧
    (¬ ∃ d, Ev.saveCsv d ∈ (mainRun envInvalid dfDone).evs) ∧
    (¬ ∃ m, Ev.saveMeta m ∈ (mainRun envInvalid dfDone).evs) := by
  have h : (mainRun envInvalid dfDone).evs = [Ev.saveXlsx dfDone] := by decide
  refine ⟨h, ?_, ?_⟩
  · rintro ⟨d, hd⟩
    rw [h] at hd
    simp at hd
  · rintro ⟨m, hm⟩
    rw [h] at hm
    simp at hm

/-- C9 as amended: with no unresolved row the loop is skipped, zero
verifications are performed, the table is unchanged, and exactly one
best-effort Excel snapshot write happens — but neither the CSV snapshot nor
the checkpoint record is written. -/
theorem c9_resolved_table_run (env : Env) (df0 : List Row)
    (h : firstUnresolvedIdx df0 = none) :
    mainRun env df0 = ⟨[Ev.saveXlsx df0], df0, env.meta0⟩ := by
  simp only [mainRun, h]

/-- Witness for the amended C9 on a concrete resolved table. -/
theorem c9_resolved_table_run_witness :
    mainRun envInvalid dfDone = ⟨[Ev.saveXlsx dfDone], dfDone, none⟩ :=
  c9_resolved_table_run envInvalid dfDone (by decide)

/-- C10: a previous output that fails to parse or lacks the detected URL
column is silently ignored — reconciliation returns the original rows with
all statuses set to the empty string, and the first unresolved index is 0,
so the run proceeds from row 0. -/
theorem c10_bad_prev_ignored (orig : List Row0) (prev : PrevData)
    (h : prev = PrevData.parseError ∨ ∃ rows, prev = PrevData.parsed false rows) :
    reconcile orig prev = freshTable orig ∧
    (orig ≠ [] → firstUnresolvedIdx (reconcile orig prev) = some 0) := by
  have hr : reconcile orig prev = freshTable orig := by
    rcases h with h | ⟨rows, h⟩ <;> subst h <;> rfl
  refine ⟨hr, fun hne => ?_⟩
  rw [hr]
  cases orig with
  | nil => exact absurd rfl hne
  | cons r rs => rfl

/-- Witness for C10 at a concrete unreadable previous output. -/
theorem c10_bad_prev_ignored_witness :
    reconcile origABC PrevData.parseError = freshTable origABC ∧
    firstUnresolvedIdx (reconcile origABC PrevData.parseError) = some 0 :=
  ⟨(c10_bad_prev_ignored origABC PrevData.parseError (Or.inl rfl)).1,
   (c10_bad_prev_ignored origABC PrevData.parseError (Or.inl rfl)).2 (by decide)⟩

/-- A linear search equals the head of the filtered list. -/
theorem find_eq_head_filter {α : Type} (p : α → Bool) (l : List α) :
    l.find? p = (l.filter p).head? := by
  induction l with
  | nil => rfl
  | cons a l ih =>
    cases pa : p a
    · rw [List.find?_cons_of_neg _ (by simp [pa]), List.filter_cons_of_neg (by simp [pa])]
      exact ih
    · rw [List.find?_cons_of_pos _ pa, List.filter_cons_of_pos pa, List.head?_cons]

/-- A merge row contributes exactly one output row when its URL matches at
most one previous row. -/
theorem mergeRowByUrl_length (prev : List Row) (r : Row0)
    (h : (prev.filter fun p => p.url == r.url).length ≤ 1) :
    (mergeRowByUrl prev r).length = 1 := by
  simp only [mergeRowByUrl]
  cases hps : prev.filter fun p => p.url == r.url with
  | nil => simp [hps]
  | cons q qs =>
    cases qs with
    | nil => simp [hps]
    | cons q2 qs2 =>
      rw [hps] at h
      simp only [List.length_cons] at h
      omega

/-- Length of the URL merge under the at-most-one-match hypothesis. -/
theorem mergeByUrl_length (orig : List Row0) (prev : List Row)
    (h : ∀ r ∈ orig, ((prev.filter fun p => p.url == r.url).length ≤ 1)) :
    (mergeByUrl orig prev).length = orig.length := by
  induction orig with
  | nil => rfl
  | cons r rs ih =>
    simp only [mergeByUrl, List.flatMap_cons, List.length_append]
    have h1 : (mergeRowByUrl prev r).length = 1 :=
      mergeRowByUrl_length prev r (h r (List.mem_cons_self r rs))
    have h2 : (mergeByUrl rs prev).length = rs.length :=
      ih (fun x hx => h x (List.mem_cons_of_mem r hx))
    simp only [mergeByUrl] at h2
    rw [h1, h2, List.length_cons]
    omega

/-- Under the at-most-one-match hypothesis, the pandas merge coincides with
the per-row carry-over merge described by the spec. -/
theorem mergeByUrl_eq_spec (orig : List Row0) (prev : List Row)
    (h : ∀ r ∈ orig, ((prev.filter fun p => p.url == r.url).length ≤ 1)) :
    mergeByUrl orig prev = specMergeByUrl orig prev := by
  induction orig with
  | nil => rfl
  | cons r rs ih =>
    simp only [mergeByUrl, List.flatMap_cons, specMergeByUrl, List.map_cons]
    have hr := h r (List.mem_cons_self r rs)
    have head : mergeRowByUrl prev r =
        [match prev.find? (fun p => p.url == r.url) with
         | some p => ⟨r.data, r.url, p.status, p.detail⟩
         | none => ⟨r.data, r.url, none, none⟩] := by
      rw [find_eq_head_filter]
      simp only [mergeRowByUrl]
      cases hps : prev.filter fun p => p.url == r.url with
      | nil => simp [hps]
      | cons q qs =>
        cases qs with
        | nil => simp [hps]
        | cons q2 qs2 =>
          rw [hps] at hr
          simp only [List.length_cons] at hr
          omega
    rw [head, List.singleton_append]
    have tail : mergeByUrl rs prev = specMergeByUrl rs prev :=
      ih (fun x hx => h x (List.mem_cons_of_mem r hx))
    simp only [mergeByUrl, specMergeByUrl] at tail
    rw [tail]

/-- C2 counterexample: with a duplicated URL in the previous output, the
pandas merge replicates the matching original row once per match, so the
resulting working table is not the original rows with carried-over
statuses — it has an extra row carrying both conflicting verdicts. -/
theorem c2_counterexample :
    reconcile origDup (PrevData.parsed true prevDup) =
      [⟨"X", "http://x", some "valid", some "d1"⟩,
       ⟨"X", "http://x", some "invalid", some "d2"⟩] ∧
    (reconcile origDup (PrevData.parsed true prevDup)).length ≠ origDup.length := by
  decide

/-- C2 as amended: when each original URL matches at most one previous-output
row (in particular when the previous output's URLs are distinct), the
count-mismatch reconciliation is exactly the spec's per-row carry-over by
URL equality, with unmatched rows left unresolved. -/
theorem c2_merge_by_url (orig : List Row0) (rows : List Row)
    (hlen : rows.length ≠ orig.length)
    (h : ∀ r ∈ orig, ((rows.filter fun p => p.url == r.url).length ≤ 1)) :
    reconcile orig (PrevData.parsed true rows) = specMergeByUrl orig rows := by
  simp only [reconcile, if_neg hlen]
  exact mergeByUrl_eq_spec orig rows h

/-- Witness for C2 on the spec's own example: originals [A,B,C], previous
output [A(valid),C(valid)], reconciliation yields
[A(valid), B(unresolved), C(valid)] and drops nothing else. -/
theorem c2_merge_by_url_witness :
    reconcile origABC (PrevData.parsed true prevAC) =
      [⟨"A", "http://a", some "valid", some "ok_a"⟩, ⟨"B", "http://b", none, none⟩,
       ⟨"C", "http://c", some "valid", some "ok_c"⟩] := by
  have h := c2_merge_by_url origABC prevAC (by decide) (by decide)
  rw [h]
  decide

/-- C7 counterexample: a previous output with one URL duplicated makes the
merged working table longer than the input (2 rows from 1), so reconciliation
does not always preserve the input row count. -/
theorem c7_counterexample :
    (reconcile origDup (PrevData.parsed true prevDup)).length = 2 ∧ origDup.length = 1 := by
  decide

/-- C7 as amended: reconciliation preserves the input row count provided
that, on the count-mismatch merge path, each original row's URL matches at
most one previous-output row; duplicate matching URLs instead replicate the
matched row once per match. -/
theorem c7_length_preserved (orig : List Row0) (prev : PrevData)
    (h : ∀ rows, prev = PrevData.parsed true rows →
         ∀ r ∈ orig, ((rows.filter fun p => p.url == r.url).length ≤ 1)) :
    (reconcile orig prev).length = orig.length := by
  match prev with
  | PrevData.noFile => simp [reconcile, freshTable]
  | PrevData.parseError => simp [reconcile, freshTable]
  | PrevData.parsed false rows => simp [reconcile, freshTable]
  | PrevData.parsed true rows =>
    simp only [reconcile]
    by_cases hl : rows.length = orig.length
    · rw [if_pos hl]
      exact hl
    · rw [if_neg hl]
      exact mergeByUrl_length orig rows (h rows rfl)

/-- Witness for the amended C7 on the [A,B,C] / [A,C] example. -/
theorem c7_length_preserved_witness :
    (reconcile origABC (PrevData.parsed true prevAC)).length = origABC.length :=
  c7_length_preserved origABC (PrevData.parsed true prevAC)
    (fun rows hrows => by cases hrows; decide)

/-- A single file-system operation leaves every path it does not write
unchanged. -/
theorem applyOp_not_written (fs : FS) (op : FsOp) (q : FPath) (h : q ∉ opWrites op) :
    applyOp fs op q = fs q := by
  cases op with
  | create p =>
    simp only [opWrites, List.mem_singleton] at h
    simp [applyOp, fsSet, h]
  | append p c =>
    simp only [opWrites, List.mem_singleton] at h
    simp [applyOp, fsSet, h]
  | replace s d =>
    simp only [opWrites, List.mem_cons, List.mem_singleton, not_or] at h
    obtain ⟨h1, h2⟩ := h
    simp only [applyOp]
    cases hv : fs s
    · rfl
    · simp [fsDel, fsSet, h1, h2]

/-- An operation sequence leaves every path it never writes unchanged. -/
theorem applyOps_not_written (ops : List FsOp) (fs : FS) (q : FPath)
    (h : ∀ op ∈ ops, q ∉ opWrites op) : applyOps fs ops q = fs q := by
  induction ops generalizing fs with
  | nil => rfl
  | cons op ops ih =>
    show applyOps (applyOp fs op) ops q = fs q
    rw [ih (applyOp fs op) (fun o ho => h o (List.mem_cons_of_mem op ho))]
    exact applyOp_not_written fs op q (h op (List.mem_cons_self op ops))

/-- Appending chunks one by one accumulates the full content at the
temporary path. -/
theorem applyOps_appends (l : List String) (tmp : FPath) :
    ∀ (fs : FS) (v : List String), fs tmp = some v →
      applyOps fs (l.map (FsOp.append tmp)) tmp = some (v ++ l) := by
  induction l with
  | nil =>
    intro fs v hv
    simpa using hv
  | cons c l ih =>
    intro fs v hv
    show applyOps (applyOp fs (FsOp.append tmp c)) (l.map (FsOp.append tmp)) tmp =
      some (v ++ c :: l)
    have hv' : (applyOp fs (FsOp.append tmp c)) tmp = some (v ++ [c]) := by
      simp [applyOp, fsSet, hv]
    rw [ih _ _ hv']
    simp

/-- Core crash-safety lemma for the create/append/replace pattern: after any
prefix of the operation sequence the target path holds either its previous
content or the new complete content, and after the full sequence it holds
the new complete content. -/
theorem tempReplaceSafe (fs : FS) (tmp target : FPath) (content : List String)
    (hne : tmp ≠ target) :
    (∀ k, applyOps fs ((FsOp.create tmp ::
            (content.map (FsOp.append tmp) ++ [FsOp.replace tmp target])).take k) target =
            fs target ∨
          applyOps fs ((FsOp.create tmp ::
            (content.map (FsOp.append tmp) ++ [FsOp.replace tmp target])).take k) target =
            some content) ∧
    applyOps fs (FsOp.create tmp ::
        (content.map (FsOp.append tmp) ++ [FsOp.replace tmp target])) target = some content := by
  have htgt : target ≠ tmp := Ne.symm hne
  have hops : FsOp.create tmp :: (content.map (FsOp.append tmp) ++ [FsOp.replace tmp target]) =
      (FsOp.create tmp :: content.map (FsOp.append tmp)) ++ [FsOp.replace tmp target] := by
    simp
  have hpre_only_tmp : ∀ op ∈ FsOp.create tmp :: content.map (FsOp.append tmp),
      target ∉ opWrites op := by
    intro op hop
    rcases List.mem_cons.mp hop with rfl | hmem
    · simp [opWrites, htgt]
    · obtain ⟨c, _, rfl⟩ := List.mem_map.mp hmem
      simp [opWrites, htgt]
  have hpre_tmp : applyOps fs (FsOp.create tmp :: content.map (FsOp.append tmp)) tmp =
      some content := by
    show applyOps (applyOp fs (FsOp.create tmp)) (content.map (FsOp.append tmp)) tmp =
      some content
    have hc : (applyOp fs (FsOp.create tmp)) tmp = some [] := by simp [applyOp, fsSet]
    simpa using applyOps_appends content tmp _ [] hc
  have hfull : applyOps fs (FsOp.create tmp ::
      (content.map (FsOp.append tmp) ++ [FsOp.replace tmp target])) target = some content := by
    rw [hops]
    show ((FsOp.create tmp :: content.map (FsOp.append tmp)) ++
        [FsOp.replace tmp target]).foldl applyOp fs target = some content
    rw [List.foldl_append]
    show applyOp (applyOps fs (FsOp.create tmp :: content.map (FsOp.append tmp)))
        (FsOp.replace tmp target) target = some content
    simp only [applyOp, hpre_tmp]
    simp [fsDel, fsSet, htgt]
  refine ⟨fun k => ?_, hfull⟩
  by_cases hk : k ≤ (FsOp.create tmp :: content.map (FsOp.append tmp)).length
  · left
    rw [hops, List.take_append_of_le_length hk]
    exact applyOps_not_written _ fs target
      (fun op hop => hpre_only_tmp op (List.take_subset _ _ hop))
  · right
    have hlen : (FsOp.create tmp ::
        (content.map (FsOp.append tmp) ++ [FsOp.replace tmp target])).length ≤ k := by
      simp only [List.length_cons, List.length_append, List.length_map,
        List.length_nil] at hk ⊢
      omega
    rw [List.take_of_length_le hlen]
    exact hfull

/-- Every path written by the create/append/replace pattern lies in the
target's directory when the temporary does. -/
theorem tempOpsSameDir (tmp target : FPath) (content : List String)
    (hd : tmp.dir = target.dir) :
    ∀ op ∈ FsOp.create tmp :: (content.map (FsOp.append tmp) ++ [FsOp.replace tmp target]),
      ∀ p ∈ opWrites op, p.dir = target.dir := by
  intro op hop p hp
  rcases List.mem_cons.mp hop with rfl | hmem
  · simp only [opWrites, List.mem_singleton] at hp
    rw [hp, hd]
  · rcases List.mem_append.mp hmem with hmap | hrep
    · obtain ⟨c, _, rfl⟩ := List.mem_map.mp hmap
      simp only [opWrites, List.mem_singleton] at hp
      rw [hp, hd]
    · rw [List.mem_singleton] at hrep
      subst hrep
      simp only [opWrites, List.mem_cons, List.not_mem_nil, or_false] at hp
      rcases hp with rfl | rfl
      · exact hd
      · rfl

/-- C4: both persistence primitives — `atomic_write_csv` and
`save_checkpoint_meta` — write only inside the target's directory, stream
the complete content into a temporary path there, and install it with one
replace; after any prefix of the operation sequence (a crash or concurrent
read at any point) the target holds either the previous or the new complete
content, and after the full sequence it holds the new complete content. -/
theorem c4_atomic_replace (fs : FS) (target : FPath)
    (content metaContent : List String) (tmpName : String)
    (hname : tmpName ≠ target.fname) :
    ((∀ op ∈ atomicWriteCsvOps tmpName target content, ∀ p ∈ opWrites op,
        p.dir = target.dir) ∧
     (∀ k, applyOps fs ((atomicWriteCsvOps tmpName target content).take k) target =
             fs target ∨
           applyOps fs ((atomicWriteCsvOps tmpName target content).take k) target =
             some content) ∧
     applyOps fs (atomicWriteCsvOps tmpName target content) target = some content) ∧
    ((∀ op ∈ saveCheckpointMetaOps target metaContent, ∀ p ∈ opWrites op,
        p.dir = target.dir) ∧
     (∀ k, applyOps fs ((saveCheckpointMetaOps target metaContent).take k) target =
             fs target ∨
           applyOps fs ((saveCheckpointMetaOps target metaContent).take k) target =
             some metaContent) ∧
     applyOps fs (saveCheckpointMetaOps target metaContent) target = some metaContent) := by
  have hne1 : (⟨target.dir, tmpName⟩ : FPath) ≠ target :=
    fun h => hname (congrArg FPath.fname h)
  have hne2 : (⟨target.dir, target.fname ++ ".tmp"⟩ : FPath) ≠ target := by
    intro h
    have hf : target.fname ++ ".tmp" = target.fname := congrArg FPath.fname h
    have hlen : (target.fname ++ ".tmp").length = target.fname.length :=
      congrArg String.length hf
    rw [String.length_append] at hlen
    have h4 : ".tmp".length = 4 := rfl
    omega
  have h1 := tempReplaceSafe fs ⟨target.dir, tmpName⟩ target content hne1
  have h2 := tempReplaceSafe fs ⟨target.dir, target.fname ++ ".tmp"⟩ target metaContent hne2
  exact ⟨⟨tempOpsSameDir ⟨target.dir, tmpName⟩ target content rfl, h1.1, h1.2⟩,
         ⟨tempOpsSameDir ⟨target.dir, target.fname ++ ".tmp"⟩ target metaContent rfl,
          h2.1, h2.2⟩⟩

/-- Witness for C4: a concrete overwrite of an existing two-chunk file,
evaluated after the full sequence and after a mid-write prefix. -/
theorem c4_atomic_replace_witness :
    applyOps (fun _ => some ["old"]) (atomicWriteCsvOps "tmp7" ⟨"d", "out.csv"⟩ ["r1", "r2"])
        ⟨"d", "out.csv"⟩ = some ["r1", "r2"] ∧
    (applyOps (fun _ => some ["old"])
        ((atomicWriteCsvOps "tmp7" ⟨"d", "out.csv"⟩ ["r1", "r2"]).take 2) ⟨"d", "out.csv"⟩ =
          (fun _ => some ["old"] : FS) ⟨"d", "out.csv"⟩ ∨
     applyOps (fun _ => some ["old"])
        ((atomicWriteCsvOps "tmp7" ⟨"d", "out.csv"⟩ ["r1", "r2"]).take 2) ⟨"d", "out.csv"⟩ =
          some ["r1", "r2"]) ∧
    applyOps (fun _ => some ["old"]) (saveCheckpointMetaOps ⟨"d", "meta.json"⟩ ["m"])
        ⟨"d", "meta.json"⟩ = some ["m"] := by
  refine ⟨?_, ?_, ?_⟩
  · exact (c4_atomic_replace (fun _ => some ["old"]) ⟨"d", "out.csv"⟩ ["r1", "r2"] ["m"]
      "tmp7" (by decide)).1.2.2
  · exact (c4_atomic_replace (fun _ => some ["old"]) ⟨"d", "out.csv"⟩ ["r1", "r2"] ["m"]
      "tmp7" (by decide)).1.2.1 2
  · exact (c4_atomic_replace (fun _ => some ["old"]) ⟨"d", "meta.json"⟩ ["r1", "r2"] ["m"]
      "tmp7" (by decide)).2.2.2

/-- A readiness wait on a page that never completes times out at the end of
its window. -/
theorem waitForPageComplete_never (env : RenderEnv) (s w : Nat)
    (h : env.readyAt = none) :
    waitForPageComplete env s w = (false, "timeout_waiting", s + w) := by
  simp only [waitForPageComplete, h]

/-- A readiness wait whose window closes before the page completes times
out at the end of its window. -/
theorem waitForPageComplete_notYet (env : RenderEnv) (s w t : Nat)
    (h : env.readyAt = some t) (ht : ¬ t ≤ s + w) :
    waitForPageComplete env s w = (false, "timeout_waiting", s + w) := by
  simp only [waitForPageComplete, h]
  rw [if_neg ht]

/-- A readiness wait whose window reaches the completion time succeeds. -/
theorem waitForPageComplete_ready (env : RenderEnv) (s w t : Nat)
    (h : env.readyAt = some t) (ht : t ≤ s + w) :
    ∃ d, waitForPageComplete env s w = (true, d, max s t + EXTRA_JS_SETTLE) := by
  simp only [waitForPageComplete, h]
  rw [if_pos ht]
  by_cases hbl : env.bodyLen ≥ BODY_MIN_LENGTH
  · rw [if_pos hbl]
    exact ⟨_, rfl⟩
  · rw [if_neg hbl]
    exact ⟨_, rfl⟩

/-- C6: in the render stage, when the short readiness wait fails (here: the
page never completes) and navigation respected the page-load timeout, the
wait is retried exactly once with timeout
`min SELENIUM_WAIT_LONG (SELENIUM_MAX_WAIT_PER_URL - elapsed)`, the verdict
is invalid, and the stage ends no later than the hard per-URL ceiling; when
elapsed time already reached the ceiling there is no retry and the verdict
is invalid; and when the retry's window reaches the page's completion time
the verdict is valid. -/
theorem c6_bounded_escalation :
    (∀ env : RenderEnv,
        (env.navOutcome = NavOut.ok ∨ env.navOutcome = NavOut.timedOut) →
        env.readyAt = none →
        env.navTime ≤ SELENIUM_PAGE_LOAD_TIMEOUT →
        (checkWithSelenium env).ok = false ∧
        (checkWithSelenium env).endTime ≤ SELENIUM_MAX_WAIT_PER_URL ∧
        (checkWithSelenium env).waits =
          [(env.navTime, SELENIUM_WAIT_SHORT),
           (env.navTime + SELENIUM_WAIT_SHORT,
            min SELENIUM_WAIT_LONG
              (SELENIUM_MAX_WAIT_PER_URL - (env.navTime + SELENIUM_WAIT_SHORT)))]) ∧
    (∀ env : RenderEnv,
        (env.navOutcome = NavOut.ok ∨ env.navOutcome = NavOut.timedOut) →
        env.readyAt = none →
        SELENIUM_MAX_WAIT_PER_URL ≤ env.navTime + SELENIUM_WAIT_SHORT →
        (checkWithSelenium env).ok = false ∧
        (checkWithSelenium env).waits = [(env.navTime, SELENIUM_WAIT_SHORT)]) ∧
    (∀ (env : RenderEnv) (t : Nat),
        (env.navOutcome = NavOut.ok ∨ env.navOutcome = NavOut.timedOut) →
        env.readyAt = some t →
        env.navTime + SELENIUM_WAIT_SHORT < t →
        env.navTime + SELENIUM_WAIT_SHORT < SELENIUM_MAX_WAIT_PER_URL →
        t ≤ env.navTime + SELENIUM_WAIT_SHORT +
            min SELENIUM_WAIT_LONG
              (SELENIUM_MAX_WAIT_PER_URL - (env.navTime + SELENIUM_WAIT_SHORT)) →
        (checkWithSelenium env).ok = true) := by
  refine ⟨?_, ?_, ?_⟩
  · rintro ⟨nav, nt, ra, bl⟩ hnav hready hload
    simp only at hnav hready hload ⊢
    subst hready
    have hw1 := waitForPageComplete_never ⟨nav, nt, none, bl⟩ nt SELENIUM_WAIT_SHORT rfl
    have hw2 := waitForPageComplete_never ⟨nav, nt, none, bl⟩ (nt + SELENIUM_WAIT_SHORT)
        (min SELENIUM_WAIT_LONG (SELENIUM_MAX_WAIT_PER_URL - (nt + SELENIUM_WAIT_SHORT))) rfl
    simp only [SELENIUM_WAIT_SHORT, SELENIUM_WAIT_LONG, SELENIUM_MAX_WAIT_PER_URL,
      SELENIUM_PAGE_LOAD_TIMEOUT] at hw1 hw2 hload ⊢
    rcases hnav with rfl | rfl <;>
    · simp only [checkWithSelenium, SELENIUM_WAIT_SHORT, SELENIUM_WAIT_LONG,
        SELENIUM_MAX_WAIT_PER_URL, hw1]
      rw [if_pos (by omega)]
      simp only [hw2]
      refine ⟨?_, ?_, ?_⟩ <;> first | rfl | trivial | omega
  · rintro ⟨nav, nt, ra, bl⟩ hnav hready hceil
    simp only at hnav hready hceil ⊢
    subst hready
    have hw1 := waitForPageComplete_never ⟨nav, nt, none, bl⟩ nt SELENIUM_WAIT_SHORT rfl
    simp only [SELENIUM_WAIT_SHORT, SELENIUM_MAX_WAIT_PER_URL] at hw1 hceil ⊢
    rcases hnav with rfl | rfl <;>
    · simp only [checkWithSelenium, SELENIUM_WAIT_SHORT, SELENIUM_WAIT_LONG,
        SELENIUM_MAX_WAIT_PER_URL, hw1]
      rw [if_neg (by omega)]
      exact ⟨rfl, rfl⟩
  · rintro ⟨nav, nt, ra, bl⟩ t hnav hready h1 h2 h3
    simp only at hnav hready h1 h2 h3 ⊢
    subst hready
    simp only [SELENIUM_WAIT_SHORT, SELENIUM_WAIT_LONG, SELENIUM_MAX_WAIT_PER_URL]
      at h1 h2 h3 ⊢
    have hw1 := waitForPageComplete_notYet ⟨nav, nt, some t, bl⟩ nt 10 t rfl (by omega)
    obtain ⟨d, hw2⟩ := waitForPageComplete_ready ⟨nav, nt, some t, bl⟩ (nt + 10)
        (min 45 (70 - (nt + 10))) t rfl (by omega)
    rcases hnav with rfl | rfl <;>
    · simp only [checkWithSelenium, SELENIUM_WAIT_SHORT, SELENIUM_WAIT_LONG,
        SELENIUM_MAX_WAIT_PER_URL, hw1]
      rw [if_pos (by omega)]
      simp only [hw2]

/-- Witness for C6: navigation takes 5s on a never-completing page (bounded
failure with the escalated retry), and a page completing at 20s is accepted
by the retry. -/
theorem c6_bounded_escalation_witness :
    (checkWithSelenium ⟨NavOut.ok, 5, none, 0⟩).ok = false ∧
    (checkWithSelenium ⟨NavOut.ok, 5, none, 0⟩).endTime ≤ SELENIUM_MAX_WAIT_PER_URL ∧
    (checkWithSelenium ⟨NavOut.ok, 5, none, 0⟩).waits =
      [(5, SELENIUM_WAIT_SHORT),
       (5 + SELENIUM_WAIT_SHORT,
        min SELENIUM_WAIT_LONG (SELENIUM_MAX_WAIT_PER_URL - (5 + SELENIUM_WAIT_SHORT)))] ∧
    (checkWithSelenium ⟨NavOut.ok, 0, some 20, 25⟩).ok = true := by
  have h := c6_bounded_escalation.1 ⟨NavOut.ok, 5, none, 0⟩ (Or.inl rfl) rfl (by decide)
  have h2 := c6_bounded_escalation.2.2 ⟨NavOut.ok, 0, some 20, 25⟩ 20 (Or.inl rfl) rfl
    (by decide) (by decide) (by decide)
  exact ⟨h.1, h.2.1, h.2.2, h2⟩

end EduCheck
